import Mathlib

/-!
# Verification of the chat answer-resolution pipeline

Shallow embedding of `controllers/chatController.js` (the `handleChat`
request handler, the `llmMeaningMatch` LLM arbiter and the `smartFallback`
generator), together with proofs of the specified properties.

External collaborators (`correctSpelling`, `normalizeToMeaning`,
`embedText`, `answerGeneralQuestion`, `findTopMatches`, `aiIntentRouter`)
are modelled as oracle parameters, following their contracts in the spec.
Similarity scores are modelled as rationals.
-/

set_option autoImplicit false

namespace Chatbot

/-! ## JavaScript string primitives

Faithful models of the JS string operations the controller uses:
`String.prototype.trim`, `String.prototype.split(/\s+/)`,
`Array.prototype.join`, and `String.prototype.includes`. -/

/-- JS `s.trim()`: remove whitespace from both ends. -/
def jsTrim (s : String) : String :=
  String.mk (((s.data.dropWhile Char.isWhitespace).reverse.dropWhile Char.isWhitespace).reverse)

/-- Auxiliary scanner for `jsSplitWs`: `acc` holds the current (reversed)
token; a maximal nonempty whitespace run acts as one separator.  The fuel
argument (instantiated with the length of the input) makes the recursion
structural; it never runs out mid-token since every step consumes at least
one character. -/
def jsSplitWsAux : Nat → List Char → List Char → List String
  | 0, rest, acc => [String.mk (acc.reverse ++ rest)]
  | _ + 1, [], acc => [String.mk acc.reverse]
  | fuel + 1, c :: rest, acc =>
    if c.isWhitespace then
      String.mk acc.reverse :: jsSplitWsAux fuel (rest.dropWhile Char.isWhitespace) []
    else
      jsSplitWsAux fuel rest (c :: acc)

/-- JS `s.split(/\s+/)`: split on maximal whitespace runs.  Note the JS
semantics: `"".split` gives `[""]`, and a leading/trailing run yields an
empty first/last element. -/
def jsSplitWs (s : String) : List String :=
  jsSplitWsAux s.data.length s.data []

/-- JS `Array.prototype.join(sep)`. -/
def jsJoin (sep : String) : List String → String
  | [] => ""
  | [x] => x
  | x :: y :: xs => x ++ sep ++ jsJoin sep (y :: xs)

/-- JS `s.toLowerCase()` (character-wise lowering). -/
def jsToLower (s : String) : String :=
  String.mk (s.data.map Char.toLower)

/-- JS `s.startsWith(pre)`. -/
def jsStartsWith (s pre : String) : Bool :=
  pre.data.isPrefixOf s.data

/-- Substring occurrence at any suffix position. -/
def jsIncludesAux (pat : List Char) : List Char → Bool
  | [] => pat.isEmpty
  | c :: rest => pat.isPrefixOf (c :: rest) || jsIncludesAux pat rest

/-- JS `s.includes(pat)`: substring occurrence. -/
def jsIncludes (s pat : String) : Bool :=
  jsIncludesAux pat.data s.data


/-! ## Data model -/

/-- A ranked candidate produced by `findTopMatches`: a knowledge entry's
`question` and `answer` together with its similarity `_score`. -/
structure Match where
  question : String
  answer : String
  score : ℚ
  deriving DecidableEq, Repr

/-- Tri-state outcome of LLM meaning arbitration (`true` / `false` / `null`
in the JS source). -/
inductive TriState where
  | MATCH
  | NO_MATCH
  | UNKNOWN
  deriving DecidableEq, Repr

/-- Outcome of the external `answerGeneralQuestion` call as observed by
`llmMeaningMatch`: a reply (possibly `null`, modelled by `none`) or a
thrown error. -/
inductive LlmReply where
  | ok (reply : Option String)
  | err
  deriving DecidableEq, Repr

/-- A response sent through `res.json`: either an intent-routing bypass
`{intent, target}` or an answer `{answer, via?}` (the `"question is
required"` answer carries no `via` tag, modelled by `none`). -/
inductive Response where
  | routed (intent : String) (target : String)
  | answer (text : String) (via : Option String)
  deriving DecidableEq, Repr

/-- Result of the `aiIntentRouter` collaborator.  Modelled from the spec:
the router's source is outside the controller file; its contract returns
`{intent: "pano"|"project"|"none", target?}`. -/
structure RouterResult where
  intent : String
  target : String
  deriving DecidableEq, Repr

/-- Mutable module state of the controller: the single-slot follow-up
`memory` and the embedding cache `EMB_CACHE` (a string-keyed map, modelled
as an association list). -/
structure ChatState where
  memory : String
  cache : List (String × List ℚ)
  deriving DecidableEq, Repr

/-- Observable external calls made during one request, in order. -/
inductive Event where
  | spellCall (input : String)
  | normCall (input : String)
  | embedCall (input : String)
  | rankCall (normalized : String)
  | llmCall
  deriving DecidableEq, Repr

/-- Oracles for the external collaborators, fixed for one request.
Fallible calls return `Except` (an `error` models a thrown exception). -/
structure Oracles where
  route : RouterResult
  spell : String → Except String String
  norm : String → Except String String
  embed : String → Except String (List ℚ)
  rank : List ℚ → String → List Match
  llm : LlmReply

/-! ## smartFallback and llmMeaningMatch -/

/-- The fixed fallback answer produced by `smartFallback`. -/
def smartFallback : String :=
  "I don’t have that information in my data. " ++
  "Please visit https://montforticse.in/ or contact the school office for official details."

/-- Model of `llmMeaningMatch`: parse the external model's reply.  `"yes"` (trimmed,
lowercased) means same meaning, `"no"` means different; anything else —
including a `null` reply, detected fallback text, or a thrown error —
yields `UNKNOWN`. -/
def llmMeaningMatch (r : LlmReply) : TriState :=
  match r with
  | .err => .UNKNOWN
  | .ok out =>
    let ans := jsToLower (jsTrim (out.getD ""))
    if ans = "yes" then .MATCH
    else if ans = "no" then .NO_MATCH
    else if jsIncludes ans "montforticse.in" ||
        jsStartsWith ans "i don’t have that information" then .UNKNOWN
    else .UNKNOWN

/-! ## Confidence arbiter (steps 7–9 of `handleChat`) -/

/-- Condition `low = best._score < MIN` with `MIN = 0.11`. -/
def lowOf (best : Match) : Bool :=
  decide (best.score < 11/100)

/-- Condition `ambi = second && Math.abs(best._score - second._score) < GAP` with
`GAP = 0.06`. -/
def ambiOf (best : Match) (second : Option Match) : Bool :=
  match second with
  | none => false
  | some s => decide (|best.score - s.score| < 6/100)

/-- Steps 7–9 of `handleChat`: score validation, optional LLM validation,
direct semantic match.  Returns the response together with whether the LLM
arbiter was called. -/
def scoreArbitrate (best : Match) (second : Option Match) (llm : TriState) :
    Response × Bool :=
  if lowOf best || ambiOf best second then
    match llm with
    | .MATCH => (.answer best.answer (some "llm-validated"), true)
    | .NO_MATCH => (.answer smartFallback (some "llm-reject"), true)
    | .UNKNOWN =>
      if lowOf best = false ∧ best.score ≥ 55/100 then
        (.answer best.answer (some "semantic-llm-unavailable"), true)
      else
        (.answer smartFallback (some "llm-unavailable"), true)
  else
    (.answer best.answer (some "semantic"), false)

/-- Steps 5b–9 of `handleChat`: best/second extraction, the no-match
check, one-word multi-match mode, then the confidence arbiter.  Returns
the response together with whether the LLM arbiter was called. -/
def resolveMatches (normalized : String) (ms : List Match) (llm : TriState) :
    Response × Bool :=
  match ms with
  | [] => (.answer smartFallback (some "no-match"), false)
  | best :: rest =>
    if (jsSplitWs normalized).length ≤ 1 then
      if jsTrim (jsJoin "\n\n" ((ms.filter fun m => decide (m.score ≥ 8/100)).map
          fun m => "• " ++ m.answer)) ≠ "" then
        (.answer (jsJoin "\n\n" ((ms.filter fun m => decide (m.score ≥ 8/100)).map
          fun m => "• " ++ m.answer)) (some "multi-match"), false)
      else
        scoreArbitrate best rest.head? llm
    else
      scoreArbitrate best rest.head? llm

/-! ## Embedding cache and the main handler -/

/-- Lookup (`EMB_CACHE.get`) on the association-list model of the `Map`. -/
def cacheLookup (k : String) : List (String × List ℚ) → Option (List ℚ)
  | [] => none
  | (k2, v) :: rest => if k = k2 then some v else cacheLookup k rest

/-- Step 4 of `handleChat` (`EMB_CACHE` get / `embedText` / set).  Returns
the vector (or the thrown error), the updated cache, and the number of
external `embedText` calls made (0 on a hit, 1 on a miss).  Note the JS
hit test is `!vector`, so a stored empty array still counts as a hit. -/
def embedStep (embed : String → Except String (List ℚ)) (normalized : String)
    (cache : List (String × List ℚ)) :
    Except String (List ℚ) × List (String × List ℚ) × Nat :=
  match cacheLookup normalized cache with
  | some v => (.ok v, cache, 0)
  | none =>
    match embed normalized with
    | .ok v => (.ok v, (normalized, v) :: cache, 1)
    | .error e => (.error e, cache, 1)

/-- Step 1 of `handleChat` (follow-up memory merge): the string handed to
`correctSpelling`, given the current memory and the trimmed question. -/
def effectiveQuery (mem question : String) : String :=
  if mem ≠ "" ∧ question.length ≤ 4 then mem ++ " " ++ question else question

/-- Trace fragment of the embed step: an `embedText` call is observable
exactly when the cache missed. -/
def embTrace (normalized : String) (calls : Nat) : List Event :=
  if calls = 0 then [] else [.embedCall normalized]

/-- Steps 4b–9 of `handleChat`, after a vector has been obtained: the
`no-vector` short-circuit, then `findTopMatches` and `resolveMatches`. -/
def afterVector (o : Oracles) (st : ChatState) (normalized : String)
    (v : List ℚ) (tr : List Event) :
    Except String Response × ChatState × List Event :=
  if v.length = 0 then
    (.ok (.answer smartFallback (some "no-vector")), st, tr)
  else
    if (resolveMatches normalized (o.rank v normalized) (llmMeaningMatch o.llm)).2 then
      (.ok (resolveMatches normalized (o.rank v normalized) (llmMeaningMatch o.llm)).1,
        st, tr ++ [.rankCall normalized, .llmCall])
    else
      (.ok (resolveMatches normalized (o.rank v normalized) (llmMeaningMatch o.llm)).1,
        st, tr ++ [.rankCall normalized])

/-- Steps 0–9 of `handleChat` on a validated, already-trimmed question:
intent routing, memory merge and overwrite, spelling, normalization,
cached embedding, and vector dispatch. -/
def runValid (o : Oracles) (st : ChatState) (question : String) :
    Except String Response × ChatState × List Event :=
  if o.route.intent = "pano" then
    (.ok (.routed "pano" o.route.target), st, [])
  else if o.route.intent = "project" then
    (.ok (.routed "project" o.route.target), st, [])
  else
    match o.spell (effectiveQuery st.memory question) with
    | .error e =>
      (.error e, { st with memory := question },
        [.spellCall (effectiveQuery st.memory question)])
    | .ok corrected =>
      match o.norm corrected with
      | .error e =>
        (.error e, { st with memory := question },
          [.spellCall (effectiveQuery st.memory question), .normCall corrected])
      | .ok normalized =>
        match embedStep o.embed normalized st.cache with
        | (.error e, cache2, k) =>
          (.error e, { memory := question, cache := cache2 },
            [.spellCall (effectiveQuery st.memory question), .normCall corrected] ++
              embTrace normalized k)
        | (.ok v, cache2, k) =>
          afterVector o { memory := question, cache := cache2 } normalized v
            ([.spellCall (effectiveQuery st.memory question), .normCall corrected] ++
              embTrace normalized k)

/-- The body of `handleChat` inside its `try`: everything from request
validation to the response.  `q = none` models a missing or non-string
`question` field.  An `Except.error` result models an exception escaping
to the top-level `catch`; the state and trace accumulated so far are kept,
as JS mutations are not rolled back by a throw. -/
def runBody (o : Oracles) (st : ChatState) (q : Option String) :
    Except String Response × ChatState × List Event :=
  match q with
  | none => (.ok (.answer "question is required" none), st, [])
  | some q0 =>
    if q0 = "" then (.ok (.answer "question is required" none), st, [])
    else runValid o st (jsTrim q0)

/-- Model of `handleChat`: the body wrapped in the top-level `try`/`catch`; any
escaping exception becomes the fallback answer tagged `error`. -/
def handleChat (o : Oracles) (st : ChatState) (q : Option String) :
    Response × ChatState × List Event :=
  match runBody o st q with
  | (.ok r, st2, tr) => (r, st2, tr)
  | (.error _, st2, tr) => (.answer smartFallback (some "error"), st2, tr)

/-! ## Helper lemmas -/

theorem data_append (s t : String) : (s ++ t).data = s.data ++ t.data :=
  rfl

/-- A valid (nonempty-string) question goes through `runValid` on its
trimmed form. -/
theorem runBody_valid (o : Oracles) (st : ChatState) (q0 : String) (h0 : q0 ≠ "") :
    runBody o st (some q0) = runValid o st (jsTrim q0) := by
  show (if q0 = "" then (.ok (.answer "question is required" none), st, [])
    else runValid o st (jsTrim q0)) = runValid o st (jsTrim q0)
  rw [if_neg h0]

/-- The `afterVector` stage never changes the state. -/
theorem afterVector_state (o : Oracles) (st : ChatState) (normalized : String)
    (v : List ℚ) (tr : List Event) : (afterVector o st normalized v tr).2.1 = st := by
  unfold afterVector
  split
  · rfl
  · split <;> rfl

/-- The `afterVector` stage only appends to the trace it is given. -/
theorem afterVector_trace (o : Oracles) (st : ChatState) (normalized : String)
    (v : List ℚ) (tr : List Event) :
    ∃ post, (afterVector o st normalized v tr).2.2 = tr ++ post := by
  unfold afterVector
  split
  · exact ⟨[], by simp⟩
  · split
    · exact ⟨[.rankCall normalized, .llmCall], rfl⟩
    · exact ⟨[.rankCall normalized], rfl⟩

/-- With an empty vector, `afterVector` is the `no-vector` fallback and
adds nothing to the trace. -/
theorem afterVector_empty (o : Oracles) (st : ChatState) (normalized : String)
    (tr : List Event) :
    afterVector o st normalized [] tr =
      (.ok (.answer smartFallback (some "no-vector")), st, tr) := by
  unfold afterVector
  simp

/-- On an unrouted question the memory slot ends up holding the question,
whatever else happens downstream. -/
theorem runValid_memory_eq (o : Oracles) (st : ChatState) (question : String)
    (hp : o.route.intent ≠ "pano") (hj : o.route.intent ≠ "project") :
    (runValid o st question).2.1.memory = question := by
  unfold runValid
  rw [if_neg hp, if_neg hj]
  cases hs : o.spell (effectiveQuery st.memory question) with
  | error e => rfl
  | ok corrected =>
    dsimp only
    cases hn : o.norm corrected with
    | error e => rfl
    | ok normalized =>
      dsimp only
      rcases hE : embedStep o.embed normalized st.cache with ⟨r, cache2, k⟩
      cases r with
      | error e => rfl
      | ok v => rw [afterVector_state]

/-- On an unrouted question the trace starts with the spelling call on
the merged effective query. -/
theorem runValid_trace_head (o : Oracles) (st : ChatState) (question : String)
    (hp : o.route.intent ≠ "pano") (hj : o.route.intent ≠ "project") :
    ∃ rest, (runValid o st question).2.2 =
      .spellCall (effectiveQuery st.memory question) :: rest := by
  unfold runValid
  rw [if_neg hp, if_neg hj]
  cases hs : o.spell (effectiveQuery st.memory question) with
  | error e => exact ⟨[], rfl⟩
  | ok corrected =>
    dsimp only
    cases hn : o.norm corrected with
    | error e => exact ⟨[.normCall corrected], rfl⟩
    | ok normalized =>
      dsimp only
      rcases hE : embedStep o.embed normalized st.cache with ⟨r, cache2, k⟩
      cases r with
      | error e => exact ⟨_, rfl⟩
      | ok v =>
        obtain ⟨post, hpost⟩ := afterVector_trace o
          { memory := question, cache := cache2 } normalized v
          ([.spellCall (effectiveQuery st.memory question), .normCall corrected] ++
            embTrace normalized k)
        exact ⟨.normCall corrected :: (embTrace normalized k ++ post), by rw [hpost]; simp⟩

/-- Trimming returns the empty string exactly when every character of the
input is whitespace. -/
theorem jsTrim_eq_empty_iff (s : String) :
    jsTrim s = "" ↔ ∀ c ∈ s.data, c.isWhitespace = true := by
  unfold jsTrim
  constructor
  · intro h c hc
    have h2 : ((s.data.dropWhile Char.isWhitespace).reverse.dropWhile
        Char.isWhitespace).reverse = [] := congrArg String.data h
    rw [List.reverse_eq_nil_iff, List.dropWhile_eq_nil_iff] at h2
    have hdrop : ∀ x ∈ s.data.dropWhile Char.isWhitespace, x.isWhitespace = true := by
      intro x hx
      exact h2 x (List.mem_reverse.mpr hx)
    rcases List.mem_append.mp
        ((List.takeWhile_append_dropWhile (p := Char.isWhitespace) (l := s.data)) ▸ hc) with
      htake | hd
    · exact List.mem_takeWhile_imp htake
    · exact hdrop c hd
  · intro h
    have h2 : s.data.dropWhile Char.isWhitespace = [] :=
      List.dropWhile_eq_nil_iff.mpr h
    rw [h2]
    rfl

/-- A string containing a non-whitespace character does not trim to
empty. -/
theorem jsTrim_ne_empty_of_mem (s : String) (c : Char) (hc : c ∈ s.data)
    (hw : c.isWhitespace = false) : jsTrim s ≠ "" := by
  intro h
  have := (jsTrim_eq_empty_iff s).mp h c hc
  rw [hw] at this
  exact Bool.false_ne_true this

/-- A joined nonempty list starts with its first element. -/
theorem jsJoin_data_cons (sep x : String) (xs : List String) :
    ∃ t, (jsJoin sep (x :: xs)).data = x.data ++ t := by
  cases xs with
  | nil => exact ⟨[], by simp [jsJoin]⟩
  | cons y ys =>
    exact ⟨sep.data ++ (jsJoin sep (y :: ys)).data, by simp [jsJoin, data_append]⟩

/-! ## Claim theorems -/

/-- Claim C1: in the confidence arbiter, `low` holds iff the best score is
strictly below 0.11, `ambiguous` holds iff a second candidate exists and
the absolute score gap is strictly below 0.06 (so a score of exactly 0.11
is not low and a gap of exactly 0.06 is not ambiguous), and when neither
holds the response is the best candidate's answer tagged `semantic` with
no LLM arbitration call. -/
theorem confidence_arbiter_thresholds (best : Match) (second : Option Match)
    (llm : TriState) :
    (lowOf best = true ↔ best.score < 11/100)
    ∧ (ambiOf best second = true ↔
        ∃ s, second = some s ∧ |best.score - s.score| < 6/100)
    ∧ (lowOf best = false → ambiOf best second = false →
        scoreArbitrate best second llm =
          (.answer best.answer (some "semantic"), false)) := by
  refine ⟨by simp [lowOf], ?_, ?_⟩
  · cases second with
    | none => simp [ambiOf]
    | some s => simp [ambiOf]
  · intro h1 h2
    unfold scoreArbitrate
    rw [h1, h2]
    simp

/-- Witness for C1, at both boundaries: best score exactly 0.11 (not low)
and gap exactly 0.06 (not ambiguous) yield the direct `semantic` answer
with no LLM call. -/
theorem confidence_arbiter_thresholds_witness :
    scoreArbitrate ⟨"q", "a", 11/100⟩ (some ⟨"r", "b", 1/20⟩) .MATCH
      = (.answer "a" (some "semantic"), false) :=
  (confidence_arbiter_thresholds ⟨"q", "a", 11/100⟩ (some ⟨"r", "b", 1/20⟩) .MATCH).2.2
    (by simp [lowOf])
    (by
      simp only [ambiOf, decide_eq_false_iff_not, not_lt]
      rw [show (11 : ℚ)/100 - 1/20 = 6/100 by norm_num, abs_of_nonneg (by norm_num)])

/-- Claim C2: once arbitration is escalated (low or ambiguous), the LLM
tri-state fully determines the response: MATCH accepts the best answer as
`llm-validated` regardless of score, NO_MATCH falls back as `llm-reject`,
and UNKNOWN accepts as `semantic-llm-unavailable` exactly when `low` is
false and the best score is at least 0.55, otherwise falling back as
`llm-unavailable`. -/
theorem llm_escalation_outcomes (best : Match) (second : Option Match)
    (llm : TriState)
    (h : lowOf best = true ∨ ambiOf best second = true) :
    scoreArbitrate best second llm =
      match llm with
      | .MATCH => (.answer best.answer (some "llm-validated"), true)
      | .NO_MATCH => (.answer smartFallback (some "llm-reject"), true)
      | .UNKNOWN =>
        if lowOf best = false ∧ best.score ≥ 55/100 then
          (.answer best.answer (some "semantic-llm-unavailable"), true)
        else
          (.answer smartFallback (some "llm-unavailable"), true) := by
  unfold scoreArbitrate
  have hcond : (lowOf best || ambiOf best second) = true := by
    rcases h with h | h <;> simp [h]
  rw [hcond]
  simp

/-- Witness for C2, at the trust boundary: an ambiguous-but-strong result
(best 0.55, second 0.52, LLM UNKNOWN) is accepted as
`semantic-llm-unavailable`. -/
theorem llm_escalation_outcomes_witness :
    scoreArbitrate ⟨"q", "a", 55/100⟩ (some ⟨"r", "b", 52/100⟩) .UNKNOWN
      = (.answer "a" (some "semantic-llm-unavailable"), true) := by
  have h := llm_escalation_outcomes ⟨"q", "a", 55/100⟩ (some ⟨"r", "b", 52/100⟩) .UNKNOWN
    (Or.inr (by
      simp only [ambiOf, decide_eq_true_eq]
      rw [show (55 : ℚ)/100 - 52/100 = 3/100 by norm_num, abs_of_nonneg (by norm_num)]
      norm_num))
  rw [h]
  rw [if_pos ⟨by simp [lowOf]; norm_num, by norm_num⟩]

/-- Claim C4: the LLM arbiter maps a trimmed, lowercased reply of "yes" to
MATCH, "no" to NO_MATCH, and everything else — a thrown call, a null
reply, an empty reply, or a reply echoing the fallback phrasing — to
UNKNOWN. -/
theorem llm_arbiter_reply_mapping (r : LlmReply) :
    (llmMeaningMatch r = .MATCH ↔
      ∃ rep, r = .ok rep ∧ jsToLower (jsTrim (rep.getD "")) = "yes")
    ∧ (llmMeaningMatch r = .NO_MATCH ↔
      ∃ rep, r = .ok rep ∧ jsToLower (jsTrim (rep.getD "")) = "no")
    ∧ llmMeaningMatch .err = .UNKNOWN
    ∧ llmMeaningMatch (.ok none) = .UNKNOWN
    ∧ llmMeaningMatch (.ok (some "")) = .UNKNOWN
    ∧ llmMeaningMatch (.ok (some smartFallback)) = .UNKNOWN := by
  refine ⟨?_, ?_, rfl, rfl, rfl, by decide⟩ <;>
    (cases r with
    | err => simp [llmMeaningMatch]
    | ok rep =>
      simp only [llmMeaningMatch]
      split_ifs <;> simp_all)

/-- Witness for C4: a padded, mixed-case " YES " reply maps to MATCH. -/
theorem llm_arbiter_reply_mapping_witness :
    llmMeaningMatch (.ok (some " YES ")) = .MATCH :=
  (llm_arbiter_reply_mapping (.ok (some " YES "))).1.mpr ⟨some " YES ", rfl, by decide⟩

/-- Claim C8: the embedding-cache step invokes the external service
exactly once for a given normalized query: a miss calls it once and
stores the vector under the exact query string, and any later call with
the same query is a pure cache hit (zero external calls), even when the
stored vector is empty. -/
theorem embedding_cache_memoization (embed : String → Except String (List ℚ))
    (Q : String) (cache : List (String × List ℚ)) (v : List ℚ)
    (hmiss : cacheLookup Q cache = none) (hembed : embed Q = .ok v) :
    embedStep embed Q cache = (.ok v, (Q, v) :: cache, 1)
    ∧ ∀ embed2, embedStep embed2 Q ((Q, v) :: cache) = (.ok v, (Q, v) :: cache, 0) := by
  constructor
  · unfold embedStep
    rw [hmiss, hembed]
  · intro embed2
    unfold embedStep
    rw [show cacheLookup Q ((Q, v) :: cache) = some v by simp [cacheLookup]]

/-- Witness for C8 with an empty stored vector: the second call returns
the cached empty vector and does not consult the (now failing) external
service. -/
theorem embedding_cache_memoization_witness :
    embedStep (fun _ => .ok []) "hello" [] = (.ok [], [("hello", [])], 1)
    ∧ embedStep (fun _ => .error "down") "hello" [("hello", [])]
      = (.ok [], [("hello", [])], 0) := by
  have h := embedding_cache_memoization (fun _ => .ok []) "hello" [] [] rfl rfl
  exact ⟨h.1, h.2 _⟩

/-- Claim C9: the entry point never raises: a successful body result is
passed through unchanged, and any exception escaping a pipeline stage is
converted into the fixed fallback answer tagged `error`. -/
theorem top_level_catch_error_fallback (o : Oracles) (st : ChatState)
    (q : Option String) :
    (∀ e st2 tr, runBody o st q = (.error e, st2, tr) →
      handleChat o st q = (.answer smartFallback (some "error"), st2, tr))
    ∧ (∀ r st2 tr, runBody o st q = (.ok r, st2, tr) →
      handleChat o st q = (r, st2, tr)) := by
  constructor
  · intro e st2 tr h
    unfold handleChat
    rw [h]
  · intro r st2 tr h
    unfold handleChat
    rw [h]

/-- Witness for C9: a spelling stage that throws produces the
`error`-tagged fallback (with the memory already overwritten). -/
theorem top_level_catch_error_fallback_witness :
    handleChat ⟨⟨"none", ""⟩, fun _ => .error "boom", fun s => .ok s,
        fun _ => .ok [], fun _ _ => [], .err⟩ ⟨"", []⟩ (some "hi")
      = (.answer smartFallback (some "error"), ⟨"hi", []⟩, [.spellCall "hi"]) :=
  (top_level_catch_error_fallback _ _ _).1 "boom" ⟨"hi", []⟩ [.spellCall "hi"] rfl

/-- Claim C3: for a normalized query that whitespace-splits to exactly one
token, if any ranked candidate scores at least 0.08, the response is the
`multi-match` list of exactly the bulleted answers of all qualifying
candidates — kept in the matcher's descending-score order — joined by
blank lines, and the LLM arbiter is not called. -/
theorem single_token_multi_match (normalized : String) (ms : List Match)
    (llm : TriState)
    (h1 : (jsSplitWs normalized).length = 1)
    (hsorted : ms.Sorted (fun a b => b.score ≤ a.score))
    (h8 : ∃ m ∈ ms, (8 : ℚ)/100 ≤ m.score) :
    resolveMatches normalized ms llm =
      (.answer (jsJoin "\n\n" ((ms.filter fun m => decide (m.score ≥ 8/100)).map
          fun m => "• " ++ m.answer)) (some "multi-match"), false)
    ∧ (ms.filter fun m => decide (m.score ≥ 8/100)).Sorted
        (fun a b => b.score ≤ a.score) := by
  refine ⟨?_, List.Pairwise.filter _ hsorted⟩
  obtain ⟨m0, hm0, hms⟩ := h8
  cases ms with
  | nil => cases hm0
  | cons best rest =>
    have hmem : m0 ∈ (best :: rest).filter fun m => decide (m.score ≥ 8/100) :=
      List.mem_filter.mpr ⟨hm0, by simpa using hms⟩
    have hne : ((best :: rest).filter fun m => decide (m.score ≥ 8/100)) ≠ [] :=
      List.ne_nil_of_mem hmem
    obtain ⟨y, ys, hyys⟩ := List.exists_cons_of_ne_nil hne
    have hchar : '•' ∈ (jsJoin "\n\n" (((best :: rest).filter
        fun m => decide (m.score ≥ 8/100)).map fun m => "• " ++ m.answer)).data := by
      rw [hyys, List.map_cons]
      obtain ⟨t, ht⟩ := jsJoin_data_cons "\n\n" ("• " ++ y.answer)
        (ys.map fun m => "• " ++ m.answer)
      rw [ht, data_append]
      exact List.mem_append_left _ (List.mem_append_left _ (by decide))
    have hne2 := jsTrim_ne_empty_of_mem _ '•' hchar (by decide)
    unfold resolveMatches
    dsimp only
    rw [if_pos (le_of_eq h1), if_pos hne2]

/-- Witness for C3: the one-word query "fees" with two qualifying
candidates yields the two bulleted answers in ranked order. -/
theorem single_token_multi_match_witness :
    resolveMatches "fees" [⟨"q1", "a1", 9/10⟩, ⟨"q2", "a2", 1/10⟩] .UNKNOWN
      = (.answer "• a1\n\n• a2" (some "multi-match"), false) := by
  have h := single_token_multi_match "fees"
    [⟨"q1", "a1", 9/10⟩, ⟨"q2", "a2", 1/10⟩] .UNKNOWN
    (by decide)
    (by
      rw [List.sorted_cons, List.sorted_cons]
      refine ⟨?_, ?_, List.sorted_nil⟩
      · intro b hb
        rw [List.mem_singleton.mp hb]
        norm_num
      · intro b hb
        cases hb)
    ⟨⟨"q1", "a1", 9/10⟩, by simp, by norm_num⟩
  rw [h.1]
  have hf : (([⟨"q1", "a1", 9/10⟩, ⟨"q2", "a2", 1/10⟩] : List Match).filter
      fun m => decide (m.score ≥ 8/100)) = [⟨"q1", "a1", 9/10⟩, ⟨"q2", "a2", 1/10⟩] := by
    simp only [List.filter_cons, List.filter_nil, decide_eq_true_eq]
    norm_num
  rw [hf]
  decide

/-- Claim C5: on a valid unrouted request, the query handed to the
spelling stage (the first pipeline call, ahead of normalization) is the
memory-merged effective query: `memory ++ " " ++ question` exactly when
the stored memory is nonempty and the trimmed question has at most 4
characters, and the trimmed question unchanged otherwise. -/
theorem memory_merge_effective_query (o : Oracles) (st : ChatState) (q0 : String)
    (h0 : q0 ≠ "") (hp : o.route.intent ≠ "pano") (hj : o.route.intent ≠ "project") :
    ∃ rest, (runBody o st (some q0)).2.2 =
      .spellCall (if st.memory ≠ "" ∧ (jsTrim q0).length ≤ 4
        then st.memory ++ " " ++ jsTrim q0 else jsTrim q0) :: rest := by
  rw [runBody_valid o st q0 h0]
  exact runValid_trace_head o st (jsTrim q0) hp hj

/-- Witness for C5: after "school", the 4-character follow-up "fees" is
spell-checked as the merged "school fees". -/
theorem memory_merge_effective_query_witness :
    ∃ rest, (runBody ⟨⟨"none", ""⟩, fun s => .ok s, fun s => .ok s, fun _ => .ok [],
        fun _ _ => [], .err⟩ ⟨"school", []⟩ (some "fees")).2.2
      = .spellCall "school fees" :: rest := by
  obtain ⟨rest, hr⟩ := memory_merge_effective_query ⟨⟨"none", ""⟩, fun s => .ok s,
      fun s => .ok s, fun _ => .ok [], fun _ _ => [], .err⟩ ⟨"school", []⟩ "fees"
    (by decide) (by decide) (by decide)
  dsimp only at hr
  rw [show (if ("school" : String) ≠ "" ∧ (jsTrim "fees").length ≤ 4
      then "school" ++ " " ++ jsTrim "fees" else jsTrim "fees") = "school fees"
    from by decide] at hr
  exact ⟨rest, hr⟩

/-- Claim C6 fails on the code: a request routed to a panorama target by
the intent router returns before the memory write, so the previous memory
("old") survives a completed request whose question was "hello". -/
theorem memory_not_overwritten_on_bypass :
    (runBody ⟨⟨"pano", "lobby"⟩, fun s => .ok s, fun s => .ok s, fun _ => .ok [],
        fun _ _ => [], .err⟩ ⟨"old", []⟩ (some "hello")).1
      = .ok (.routed "pano" "lobby")
    ∧ (runBody ⟨⟨"pano", "lobby"⟩, fun s => .ok s, fun s => .ok s, fun _ => .ok [],
        fun _ _ => [], .err⟩ ⟨"old", []⟩ (some "hello")).2.1.memory = "old"
    ∧ "old" ≠ "hello" := by
  refine ⟨rfl, rfl, by decide⟩

/-- Claim C6 amended: on every request carrying a nonempty question that
the intent router does not route to a panorama or project target, the
memory slot is overwritten with the trimmed raw question (not the merged
form), regardless of the request's outcome. -/
theorem memory_overwritten_when_unrouted (o : Oracles) (st : ChatState) (q0 : String)
    (h0 : q0 ≠ "") (hp : o.route.intent ≠ "pano") (hj : o.route.intent ≠ "project") :
    (runBody o st (some q0)).2.1.memory = jsTrim q0 := by
  rw [runBody_valid o st q0 h0]
  exact runValid_memory_eq o st (jsTrim q0) hp hj

/-- Witness for the amended C6: an unrouted "hello" request overwrites the
previous memory "old" with "hello". -/
theorem memory_overwritten_when_unrouted_witness :
    (runBody ⟨⟨"none", ""⟩, fun s => .ok s, fun s => .ok s, fun _ => .ok [],
        fun _ _ => [], .err⟩ ⟨"old", []⟩ (some "hello")).2.1.memory = "hello" :=
  memory_overwritten_when_unrouted _ _ "hello" (by decide) (by decide) (by decide)

/-- Claim C7 fails on the code: when normalization yields the empty
string, the embed step still runs — here the trace records an external
embed call with the empty normalized query, since the code has no
nonemptiness guard before the lookup. -/
theorem embed_attempted_on_empty_query :
    Event.embedCall "" ∈
      (runBody ⟨⟨"none", ""⟩, fun s => .ok s, fun _ => .ok "", fun _ => .ok [],
        fun _ _ => [], .err⟩ ⟨"", []⟩ (some "hi")).2.2 := by
  decide

/-- Claim C7 amended: the embed lookup is attempted whether or not the
normalized query is empty, but a zero-length vector is never passed to
the semantic matcher: whenever the vector obtained for the normalized
query (from the cache or a fresh embed call) is empty, the request
resolves to the fallback tagged `no-vector` and no ranking call occurs. -/
theorem empty_vector_short_circuit (o : Oracles) (st : ChatState)
    (q0 c n : String)
    (h0 : q0 ≠ "") (hp : o.route.intent ≠ "pano") (hj : o.route.intent ≠ "project")
    (hs : o.spell (effectiveQuery st.memory (jsTrim q0)) = .ok c)
    (hn : o.norm c = .ok n)
    (hv : cacheLookup n st.cache = some [] ∨
      (cacheLookup n st.cache = none ∧ o.embed n = .ok [])) :
    (runBody o st (some q0)).1 = .ok (.answer smartFallback (some "no-vector"))
    ∧ ∀ m, Event.rankCall m ∉ (runBody o st (some q0)).2.2 := by
  rw [runBody_valid o st q0 h0]
  unfold runValid
  rw [if_neg hp, if_neg hj, hs]
  dsimp only
  rw [hn]
  dsimp only
  rcases hv with hv | ⟨hv1, hv2⟩
  · have hE : embedStep o.embed n st.cache = (.ok ([] : List ℚ), st.cache, 0) := by
      unfold embedStep
      rw [hv]
    rw [hE]
    dsimp only
    rw [afterVector_empty]
    exact ⟨rfl, by intro m; simp [embTrace]⟩
  · have hE : embedStep o.embed n st.cache = (.ok ([] : List ℚ), (n, []) :: st.cache, 1) := by
      unfold embedStep
      rw [hv1, hv2]
    rw [hE]
    dsimp only
    rw [afterVector_empty]
    exact ⟨rfl, by intro m; simp [embTrace]⟩

/-- Witness for the amended C7: an embed service returning the empty
vector yields the `no-vector` fallback with no ranking call. -/
theorem empty_vector_short_circuit_witness :
    (runBody ⟨⟨"none", ""⟩, fun s => .ok s, fun _ => .ok "x", fun _ => .ok [],
        fun _ _ => [], .err⟩ ⟨"", []⟩ (some "hello")).1
      = .ok (.answer smartFallback (some "no-vector"))
    ∧ Event.rankCall "x" ∉ (runBody ⟨⟨"none", ""⟩, fun s => .ok s, fun _ => .ok "x",
        fun _ => .ok [], fun _ _ => [], .err⟩ ⟨"", []⟩ (some "hello")).2.2 := by
  have h := empty_vector_short_circuit ⟨⟨"none", ""⟩, fun s => .ok s, fun _ => .ok "x",
      fun _ => .ok [], fun _ _ => [], .err⟩ ⟨"", []⟩ "hello" "hello" "x"
    (by decide) (by decide) (by decide) rfl rfl (Or.inr ⟨rfl, rfl⟩)
  exact ⟨h.1, h.2 "x"⟩

/-- Claim C10: a whitespace-only question passes the required-question
check (validation precedes trimming); the request enters the pipeline
with the empty trimmed question, overwrites the memory with the empty
string, and proceeds through spelling, normalization and the embed
lookup. -/
theorem whitespace_question_enters_pipeline (o : Oracles) (st : ChatState)
    (q0 c n : String)
    (h0 : q0 ≠ "") (hws : ∀ ch ∈ q0.data, ch.isWhitespace = true)
    (hp : o.route.intent ≠ "pano") (hj : o.route.intent ≠ "project")
    (hs : o.spell (effectiveQuery st.memory "") = .ok c)
    (hn : o.norm c = .ok n)
    (hc : cacheLookup n st.cache = none) :
    jsTrim q0 = ""
    ∧ (runBody o st (some q0)).2.1.memory = ""
    ∧ ∃ rest, (runBody o st (some q0)).2.2 =
        .spellCall (effectiveQuery st.memory "") :: .normCall c ::
          .embedCall n :: rest := by
  have ht : jsTrim q0 = "" := (jsTrim_eq_empty_iff q0).mpr hws
  refine ⟨ht, ?_, ?_⟩
  · rw [runBody_valid o st q0 h0, ht]
    exact runValid_memory_eq o st "" hp hj
  · rw [runBody_valid o st q0 h0, ht]
    unfold runValid
    rw [if_neg hp, if_neg hj, hs]
    dsimp only
    rw [hn]
    dsimp only
    rcases he : o.embed n with e | v
    · have hE : embedStep o.embed n st.cache = (.error e, st.cache, 1) := by
        unfold embedStep
        rw [hc, he]
      rw [hE]
      exact ⟨[], rfl⟩
    · have hE : embedStep o.embed n st.cache = (.ok v, (n, v) :: st.cache, 1) := by
        unfold embedStep
        rw [hc, he]
      rw [hE]
      dsimp only
      obtain ⟨post, hpost⟩ := afterVector_trace o
        { memory := "", cache := (n, v) :: st.cache } n v
        ([.spellCall (effectiveQuery st.memory ""), .normCall c] ++ embTrace n 1)
      exact ⟨post, by rw [hpost]; simp [embTrace]⟩

/-- Witness for C10: the single-space question " " passes validation,
clears the memory, and is normalized and embedded as the empty string. -/
theorem whitespace_question_enters_pipeline_witness :
    jsTrim " " = ""
    ∧ (runBody ⟨⟨"none", ""⟩, fun s => .ok s, fun s => .ok s, fun _ => .ok [],
        fun _ _ => [], .err⟩ ⟨"", []⟩ (some " ")).2.1.memory = ""
    ∧ ∃ rest, (runBody ⟨⟨"none", ""⟩, fun s => .ok s, fun s => .ok s, fun _ => .ok [],
        fun _ _ => [], .err⟩ ⟨"", []⟩ (some " ")).2.2 =
        .spellCall "" :: .normCall "" :: .embedCall "" :: rest := by
  have h := whitespace_question_enters_pipeline ⟨⟨"none", ""⟩, fun s => .ok s,
      fun s => .ok s, fun _ => .ok [], fun _ _ => [], .err⟩ ⟨"", []⟩ " " "" ""
    (by decide) (by decide) (by decide) (by decide) rfl rfl rfl
  exact ⟨h.1, h.2.1, h.2.2⟩

end Chatbot
